import Mathlib

/-!
The file service and file repository of vasvault

A shallow embedding of `internal/services/file_service.go` and
`internal/repositories/file_repository.go`.

The service talks to three collaborators: the filesystem (package `os`, `io`),
the identifier generator (`uuid.New`) and the database behind the repository
(gorm).  Their state is made explicit (`Disk`, `DB`), and whatever they may
decide on their own during one call of the service (an I/O failure, the fresh
identifier, the clock) is read from an `Env` record, so that every theorem
quantifies over all behaviours of the collaborators.  Every collaborator call
is logged, with the error it returned, in the `trace` of the outcome.
-/

namespace VasVault

/-! ## Errors -/

/-- Go `error` values.  `wrapf ctx inner` is `fmt.Errorf(ctx + ": %w", inner)`. -/
inductive Err where
  | ErrNotExist : Err
  | ErrRecordNotFound : Err
  | other (msg : String) : Err
  | wrapf (ctx : String) (inner : Err) : Err
  deriving DecidableEq, Repr

/-- The method `Unwrap` of an error: the error given to the verb `%w`. -/
def Err.Unwrap : Err → Option Err
  | .wrapf _ inner => some inner
  | _ => none

/-- The function `os.IsNotExist`, applied to the error result of a call
(`none` is Go's `nil`). -/
def IsNotExist : Option Err → Bool
  | some .ErrNotExist => true
  | _ => false

/-! ## Data model -/

/-- Modelled from the spec: `models.File` is not among the sources; these are
the fields the service assigns and reads (the FileRecord of the spec). -/
structure File where
  ID : Nat
  Filename : String
  Filepath : String
  Mimetype : String
  Size : Int
  UserID : Nat
  WorkspaceID : Option Nat
  UploadedAt : Nat
  deriving DecidableEq, Repr

/-- The type `dto.UploadFileRequest`. -/
structure UploadFileRequest where
  FolderId : Option Nat
  deriving DecidableEq, Repr

/-- The type `dto.FileResponse`. -/
structure FileResponse where
  ID : Nat
  UserId : Nat
  FolderId : Option Nat
  FileName : String
  FilePath : String
  MimeType : String
  Size : Int
  CreatedAt : Nat
  deriving DecidableEq, Repr

/-- What the service reads of a `multipart.FileHeader`: `Filename`,
`Header.Get("Content-Type")` and `Size`. -/
structure FileHeader where
  Filename : String
  ContentType : String
  Size : Int
  deriving DecidableEq, Repr

/-! ## Identifier generator (`github.com/google/uuid`) -/

/-- A `uuid.UUID` is an array of 16 bytes. -/
abbrev UUID : Type := { l : List (Fin 256) // l.length = 16 }

/-- The table of `encoding/hex`. -/
def hextable : List Char := "0123456789abcdef".data

/-- One entry of `hextable`. -/
def hexDigit (n : Nat) : Char := hextable.getD n '0'

/-- The function `hex.Encode`: two digits per byte, `hextable[v>>4]` then
`hextable[v&0x0f]`. -/
def hexEncode : List (Fin 256) → List Char
  | [] => []
  | v :: rest => hexDigit (v.val / 16) :: hexDigit (v.val % 16) :: hexEncode rest

/-- The characters of `UUID.String()`: the bytes in hexadecimal, in groups of
4, 2, 2, 2 and 6 bytes separated by `-`. -/
def uuidChars (u : UUID) : List Char :=
  hexEncode (u.val.take 4) ++ '-' :: (hexEncode ((u.val.drop 4).take 2)
    ++ '-' :: (hexEncode ((u.val.drop 6).take 2)
    ++ '-' :: (hexEncode ((u.val.drop 8).take 2)
    ++ '-' :: hexEncode (u.val.drop 10))))

/-- The method `UUID.String()`. -/
def UUID.String (u : UUID) : String := String.mk (uuidChars u)

/-! ## Paths (`path/filepath`, Unix) -/

/-- The loop of `filepath.Ext`, walking the path from its last character:
`rev` holds the characters not yet visited, last first, and `acc` the suffix
already walked over. -/
def extLoop : List Char → List Char → List Char
  | [], _ => []
  | c :: rev, acc =>
    if c = '/' then []
    else if c = '.' then c :: acc
    else extLoop rev (c :: acc)

/-- The function `filepath.Ext`: the suffix starting at the last dot of the
last element of the path, empty when that element has no dot. -/
def Ext (path : String) : String := String.mk (extLoop path.data.reverse [])

/-- The elements of a path: the pieces between the separators. -/
def splitSlash : List Char → List (List Char)
  | [] => [[]]
  | c :: cs =>
    if c = '/' then [] :: splitSlash cs
    else
      match splitSlash cs with
      | [] => [[c]]
      | x :: xs => (c :: x) :: xs

/-- One element of the path in `filepath.Clean`; `out` holds the elements kept
so far, last first.  An empty element and `.` are dropped; `..` removes the
last kept element when there is one to remove, is dropped at the root, and is
kept otherwise. -/
def cleanStep (rooted : Bool) (out : List (List Char)) (e : List Char) : List (List Char) :=
  if e = [] then out
  else if e = ['.'] then out
  else if e = ['.', '.'] then
    match out with
    | [] => if rooted then [] else [e]
    | top :: below => if top = ['.', '.'] then e :: out else below
  else e :: out

/-- The kept elements written out with separators between them. -/
def joinSlash : List (List Char) → List Char
  | [] => []
  | [e] => e
  | e :: es => e ++ '/' :: joinSlash es

/-- The function `filepath.Clean` on characters. -/
def cleanChars (path : List Char) : List Char :=
  if path = [] then ['.']
  else
    let rooted : Bool := path.head? = some '/'
    let out := ((splitSlash path).foldl (cleanStep rooted) []).reverse
    if rooted then '/' :: joinSlash out
    else if out = [] then ['.']
    else joinSlash out

/-- The function `filepath.Join` for two elements: empty elements are ignored,
the others are joined with a separator and the result is cleaned. -/
def Join (dir name : String) : String :=
  if dir.data ≠ [] then String.mk (cleanChars (dir.data ++ '/' :: name.data))
  else if name.data ≠ [] then String.mk (cleanChars name.data)
  else ""

/-! ## Filesystem state -/

/-- The regular files on disk: path and content (bytes).  Paths are compared
as strings; directories are not tracked. -/
structure Disk where
  files : List (String × List Nat)
  deriving DecidableEq, Repr

/-- Whether a file exists at the path. -/
def Disk.fileExists (d : Disk) (path : String) : Bool :=
  d.files.any (fun f => f.1 == path)

/-- The content of the file at the path. -/
def Disk.content (d : Disk) (path : String) : Option (List Nat) :=
  (d.files.find? (fun f => f.1 == path)).map Prod.snd

/-- The disk after the file at the path has been set to the content (created
when absent). -/
def Disk.write (d : Disk) (path : String) (bytes : List Nat) : Disk :=
  { files := (path, bytes) :: d.files.filter (fun f => !(f.1 == path)) }

/-- The disk after the file at the path has been removed. -/
def Disk.remove (d : Disk) (path : String) : Disk :=
  { files := d.files.filter (fun f => !(f.1 == path)) }

/-! ## Database state and the repository -/

/-- The table of file rows and the next identifier the database assigns. -/
structure DB where
  rows : List File
  nextID : Nat
  deriving DecidableEq, Repr

/-- The identifiers in use are below the next one assigned. -/
def DB.wf (db : DB) : Prop := ∀ r ∈ db.rows, r.ID < db.nextID

/-- The method `FileRepository.Create`: `r.db.Create(file).Error`.  `gormErr`
is the error of the statement; without one the row is inserted under the
next identifier, which is written back into the record. -/
def FileRepository.Create (db : DB) (gormErr : Option Err) (file : File) :
    Option Err × DB × File :=
  match gormErr with
  | some err => (some err, db, file)
  | none =>
    let stored : File := { file with ID := db.nextID }
    (none, { rows := db.rows ++ [stored], nextID := db.nextID + 1 }, stored)

/-- The method `FileRepository.FindByID`: `Where("id = ?", id).First(&file)`;
`First` reports `gorm.ErrRecordNotFound` when no row matches. -/
def FileRepository.FindByID (db : DB) (gormErr : Option Err) (id : Nat) : Except Err File :=
  match gormErr with
  | some err => .error err
  | none =>
    match db.rows.find? (fun r => r.ID == id) with
    | some file => .ok file
    | none => .error .ErrRecordNotFound

/-- The method `FileRepository.ListUserFiles`: `Where("user_id = ?",
userID).Find(&files)`; no row is not an error for `Find`. -/
def FileRepository.ListUserFiles (db : DB) (gormErr : Option Err) (userID : Nat) :
    Except Err (List File) :=
  match gormErr with
  | some err => .error err
  | none => .ok (db.rows.filter (fun r => r.UserID == userID))

/-- The method `FileRepository.Delete`: `r.db.Delete(&models.File{}, fileID).Error`;
the rows with that identifier are gone afterwards, and none matching is not an
error. -/
def FileRepository.Delete (db : DB) (gormErr : Option Err) (fileID : Nat) : Option Err × DB :=
  match gormErr with
  | some err => (some err, db)
  | none => (none, { db with rows := db.rows.filter (fun r => !(r.ID == fileID)) })

/-! ## The service -/

/-- State of the two stores the service works on. -/
structure State where
  disk : Disk
  db : DB
  deriving DecidableEq, Repr

/-- The state of a fresh installation: no file, no row. -/
def State.init : State := { disk := { files := [] }, db := { rows := [], nextID := 1 } }

/-- What the collaborators decide during one call of the service. -/
structure Env where
  /-- error of `os.Stat(basePath)` -/
  statErr : Option Err
  /-- error of `os.MkdirAll` -/
  mkdirErr : Option Err
  /-- result of `uuid.New()` -/
  newUUID : UUID
  /-- error of `os.Create` -/
  createErr : Option Err
  /-- failure of `io.Copy`: the number of bytes copied before it, and the error -/
  copyErr : Option (Nat × Err)
  /-- error of the deferred `dst.Close()` -/
  closeErr : Option Err
  /-- result of `time.Now()` -/
  now : Nat
  /-- error of `os.Remove` other than the file being absent -/
  removeErr : Option Err
  /-- error of the statement behind `repository.Create` -/
  dbCreateErr : Option Err
  /-- error of the query behind `repository.FindByID` -/
  dbFindErr : Option Err
  /-- error of the query behind `repository.ListUserFiles` -/
  dbListErr : Option Err
  /-- error of the statement behind `repository.Delete` -/
  dbDeleteErr : Option Err

/-- The collaborator calls of the service. -/
inductive Call where
  | osStat (path : String) : Call
  | osMkdirAll (path : String) : Call
  | osCreate (path : String) : Call
  | ioCopy (path : String) (written : Nat) : Call
  | fileClose (path : String) : Call
  | osRemove (path : String) : Call
  | repoCreate (file : File) : Call
  | repoFindByID (id : Nat) : Call
  | repoListUserFiles (userID : Nat) : Call
  | repoDelete (id : Nat) : Call
  deriving DecidableEq, Repr

deriving instance DecidableEq for Except

/-- A call and the error it returned. -/
abbrev Event : Type := Call × Option Err

/-- Result of one operation of the service: what it returns, the state it
leaves, and the collaborator calls it made, in order. -/
structure Outcome (α : Type) where
  res : Except Err α
  state : State
  trace : List Event

/-- The response built from a record: the struct literal of `UploadFile`,
`GetFileByID` and `ListUserFiles`. -/
def toResponse (f : File) : FileResponse :=
  { ID := f.ID, UserId := f.UserID, FolderId := f.WorkspaceID, FileName := f.Filename,
    FilePath := f.Filepath, MimeType := f.Mimetype, Size := f.Size, CreatedAt := f.UploadedAt }

/-- The function `os.Remove` on a file: it fails when the environment makes it
fail or when no file is at the path. -/
def osRemove (d : Disk) (envErr : Option Err) (path : String) : Option Err × Disk :=
  match envErr with
  | some err => (some err, d)
  | none => if d.fileExists path then (none, d.remove path) else (some .ErrNotExist, d)

/-- The first statement of `UploadFile`: `os.Stat`, then `os.MkdirAll` when
the directory is reported absent.  Returns the calls made and the error of
`MkdirAll`. -/
def ensureDir (basePath : String) (env : Env) : List Event × Option Err :=
  if IsNotExist env.statErr then
    ([(Call.osStat basePath, env.statErr), (Call.osMkdirAll basePath, env.mkdirErr)], env.mkdirErr)
  else ([(Call.osStat basePath, env.statErr)], none)

/-- The method `FileService.UploadFile`; `file` is the content the stream
delivers. -/
def UploadFile (basePath : String) (env : Env) (s : State) (userID : Nat) (file : List Nat)
    (header : FileHeader) (request : UploadFileRequest) : Outcome FileResponse :=
  let pre := ensureDir basePath env
  match pre.2 with
  | some err => ⟨.error (.wrapf "failed to create upload directory" err), s, pre.1⟩
  | none =>
    let ext := Ext header.Filename
    let newName := env.newUUID.String ++ ext
    let fullPath := Join basePath newName
    match env.createErr with
    | some err =>
      ⟨.error (.wrapf "failed to create file" err), s, pre.1 ++ [(Call.osCreate fullPath, some err)]⟩
    | none =>
      match env.copyErr with
      | some (k, err) =>
        let written := file.take k
        ⟨.error (.wrapf "failed to save file" err),
          { s with disk := s.disk.write fullPath written },
          pre.1 ++ [(Call.osCreate fullPath, none), (Call.ioCopy fullPath written.length, some err),
            (Call.fileClose fullPath, env.closeErr)]⟩
      | none =>
        let disk := s.disk.write fullPath file
        let model : File :=
          { ID := 0, Filename := newName, Filepath := fullPath, Mimetype := header.ContentType,
            Size := header.Size, UserID := userID, WorkspaceID := request.FolderId,
            UploadedAt := env.now }
        let fsCalls : List Event :=
          pre.1 ++ [(Call.osCreate fullPath, none), (Call.ioCopy fullPath file.length, none)]
        match FileRepository.Create s.db env.dbCreateErr model with
        | (some err, db, _) =>
          ⟨.error (.wrapf "failed to store file metadata" err), { disk := disk, db := db },
            fsCalls ++ [(Call.repoCreate model, some err), (Call.fileClose fullPath, env.closeErr)]⟩
        | (none, db, stored) =>
          ⟨.ok (toResponse stored), { disk := disk, db := db },
            fsCalls ++ [(Call.repoCreate model, none), (Call.fileClose fullPath, env.closeErr)]⟩

/-- The method `FileService.GetFileByID`. -/
def GetFileByID (env : Env) (s : State) (fileID : Nat) : Outcome FileResponse :=
  match FileRepository.FindByID s.db env.dbFindErr fileID with
  | .error err => ⟨.error (.wrapf "file not found" err), s, [(Call.repoFindByID fileID, some err)]⟩
  | .ok file => ⟨.ok (toResponse file), s, [(Call.repoFindByID fileID, none)]⟩

/-- The method `FileService.ListUserFiles`. -/
def ListUserFiles (env : Env) (s : State) (userID : Nat) : Outcome (List FileResponse) :=
  match FileRepository.ListUserFiles s.db env.dbListErr userID with
  | .error err =>
    ⟨.error (.wrapf "failed to fetch user file" err), s, [(Call.repoListUserFiles userID, some err)]⟩
  | .ok files => ⟨.ok (files.map toResponse), s, [(Call.repoListUserFiles userID, none)]⟩

/-- The method `FileService.DeleteFile`. -/
def DeleteFile (env : Env) (s : State) (fileID : Nat) : Outcome Unit :=
  match FileRepository.FindByID s.db env.dbFindErr fileID with
  | .error err => ⟨.error (.wrapf "file not found" err), s, [(Call.repoFindByID fileID, some err)]⟩
  | .ok file =>
    match osRemove s.disk env.removeErr file.Filepath with
    | (some err, disk) =>
      ⟨.error (.wrapf "failed to delete file from fisk" err), { s with disk := disk },
        [(Call.repoFindByID fileID, none), (Call.osRemove file.Filepath, some err)]⟩
    | (none, disk) =>
      match FileRepository.Delete s.db env.dbDeleteErr fileID with
      | (some err, db) =>
        ⟨.error (.wrapf "failed to delete file metadata" err), { disk := disk, db := db },
          [(Call.repoFindByID fileID, none), (Call.osRemove file.Filepath, none),
            (Call.repoDelete fileID, some err)]⟩
      | (none, db) =>
        ⟨.ok (), { disk := disk, db := db },
          [(Call.repoFindByID fileID, none), (Call.osRemove file.Filepath, none),
            (Call.repoDelete fileID, none)]⟩

/-! ## Predicates of the claims -/

/-- Every row has a file on disk at its stored path. -/
def RowsHaveFiles (s : State) : Prop :=
  ∀ r ∈ s.db.rows, s.disk.fileExists r.Filepath = true

instance (s : State) : Decidable (RowsHaveFiles s) := by
  unfold RowsHaveFiles
  infer_instance

/-- The operation returned an error. -/
def Outcome.failed {α : Type} (o : Outcome α) : Prop :=
  ∃ err, o.res = .error err

/-- The operation made a call of the repository method `Create`. -/
def callsCreate (t : List Event) : Prop :=
  ∃ f e, (Call.repoCreate f, e) ∈ t

/-- The operation made a call of the repository method `Delete`. -/
def callsDelete (t : List Event) : Prop :=
  ∃ id e, (Call.repoDelete id, e) ∈ t

/-- Whether the call is `os.Stat` or the deferred `Close`, the two calls whose
error the service does not return. -/
def Call.isProbeOrClose : Call → Bool
  | .osStat _ | .fileClose _ => true
  | _ => false

/-- An environment in which no collaborator fails, for examples. -/
def Env.quiet (u : UUID) (now : Nat) : Env :=
  { statErr := none, mkdirErr := none, newUUID := u, createErr := none, copyErr := none,
    closeErr := none, now := now, removeErr := none, dbCreateErr := none, dbFindErr := none,
    dbListErr := none, dbDeleteErr := none }

/-- An identifier, for examples: bytes 0 to 15. -/
def uuidA : UUID := ⟨[0, 1, 2, 3, 4, 5, 6, 7, 8, 9, 10, 11, 12, 13, 14, 15], rfl⟩

/-- Another identifier, for examples. -/
def uuidB : UUID := ⟨[255, 1, 2, 3, 4, 5, 6, 7, 8, 9, 10, 11, 12, 13, 14, 15], rfl⟩

/-- A header, for examples: `report.pdf`, declared size 500. -/
def headerReport : FileHeader :=
  { Filename := "report.pdf", ContentType := "application/pdf", Size := 500 }

/-- An environment in which `os.Create` fails, for examples. -/
def envCreateFails : Env :=
  { Env.quiet uuidA 5 with createErr := some (Err.other "permission denied") }

/-- An environment in which `os.Remove` fails, for examples. -/
def envRemoveFails : Env :=
  { Env.quiet uuidA 5 with removeErr := some (Err.other "permission denied") }

/-- An environment in which the statement behind `repository.Delete` fails,
for examples. -/
def envDbDeleteFails : Env :=
  { Env.quiet uuidA 5 with dbDeleteErr := some (Err.other "connection lost") }

/-- The state after `report.pdf` (3 bytes) has been uploaded by user 7 into
the fresh installation. -/
def stateOneFile : State :=
  (UploadFile "uploads" (Env.quiet uuidA 5) State.init 7 [1, 2, 3] headerReport ⟨none⟩).state

/-- The row of `stateOneFile`. -/
def rowReport : File :=
  { ID := 1, Filename := "00010203-0405-0607-0809-0a0b0c0d0e0f.pdf",
    Filepath := "uploads/00010203-0405-0607-0809-0a0b0c0d0e0f.pdf",
    Mimetype := "application/pdf", Size := 500, UserID := 7, WorkspaceID := none,
    UploadedAt := 5 }

/-- An environment in which `os.Stat` reports the upload directory absent, for
examples. -/
def envDirAbsent : Env :=
  { Env.quiet uuidA 5 with statErr := some Err.ErrNotExist }

/-- An environment in which the deferred `Close` fails, for examples. -/
def envCloseFails : Env :=
  { Env.quiet uuidA 5 with closeErr := some (Err.other "input/output error") }

/-- The state after `report.pdf` has been uploaded twice into the fresh
installation and the generator has returned the same identifier both times. -/
def stateSharedPath : State :=
  (UploadFile "uploads" (Env.quiet uuidA 6) stateOneFile 8 [4, 5] headerReport ⟨none⟩).state

/-- A response carries the fields of a row: each field of the response is the
field of the row it is named after in the spec. -/
def carriesRow (resp : FileResponse) (row : File) : Prop :=
  resp.ID = row.ID ∧ resp.UserId = row.UserID ∧ resp.FolderId = row.WorkspaceID ∧
    resp.FileName = row.Filename ∧ resp.FilePath = row.Filepath ∧
    resp.MimeType = row.Mimetype ∧ resp.Size = row.Size ∧ resp.CreatedAt = row.UploadedAt

/-- An environment in which the query behind `repository.ListUserFiles` fails,
for examples. -/
def envDbListFails : Env :=
  { Env.quiet uuidA 5 with dbListErr := some (Err.other "connection lost") }

/-- The state after user 8 has uploaded `notes.txt` (2 bytes) into
`stateOneFile`, under the identifier `uuidB`. -/
def stateTwoFiles : State :=
  (UploadFile "uploads" (Env.quiet uuidB 6) stateOneFile 8 [4, 5]
    { Filename := "notes.txt", ContentType := "text/plain", Size := 2 } ⟨some 3⟩).state

/-- The second row of `stateTwoFiles`. -/
def rowNotes : File :=
  { ID := 2, Filename := "ff010203-0405-0607-0809-0a0b0c0d0e0f.txt",
    Filepath := "uploads/ff010203-0405-0607-0809-0a0b0c0d0e0f.txt",
    Mimetype := "text/plain", Size := 2, UserID := 8, WorkspaceID := some 3,
    UploadedAt := 6 }

theorem ensureDir_events (basePath : String) (env : Env) (ev : Event)
    (h : ev ∈ (ensureDir basePath env).1) :
    ev = (Call.osStat basePath, env.statErr) ∨
      (ev = (Call.osMkdirAll basePath, env.mkdirErr) ∧ (ensureDir basePath env).2 = env.mkdirErr) := by
  unfold ensureDir at h ⊢
  split at h <;> simp_all

/-- The five ways through `UploadFile`. -/
theorem UploadFile_cases (basePath : String) (env : Env) (s : State)
    (userID : Nat) (file : List Nat) (header : FileHeader) (request : UploadFileRequest) :
    let pre := ensureDir basePath env
    let newName := env.newUUID.String ++ Ext header.Filename
    let fullPath := Join basePath newName
    let model : File :=
      { ID := 0, Filename := newName, Filepath := fullPath, Mimetype := header.ContentType,
        Size := header.Size, UserID := userID, WorkspaceID := request.FolderId,
        UploadedAt := env.now }
    let out := UploadFile basePath env s userID file header request
    (∃ err, pre.2 = some err ∧
        out = ⟨.error (.wrapf "failed to create upload directory" err), s, pre.1⟩) ∨
    (∃ err, pre.2 = none ∧ env.createErr = some err ∧
        out = ⟨.error (.wrapf "failed to create file" err), s,
          pre.1 ++ [(Call.osCreate fullPath, some err)]⟩) ∨
    (∃ k err, pre.2 = none ∧ env.createErr = none ∧ env.copyErr = some (k, err) ∧
        out = ⟨.error (.wrapf "failed to save file" err),
          { s with disk := s.disk.write fullPath (file.take k) },
          pre.1 ++ [(Call.osCreate fullPath, none),
            (Call.ioCopy fullPath (file.take k).length, some err),
            (Call.fileClose fullPath, env.closeErr)]⟩) ∨
    (∃ err, pre.2 = none ∧ env.createErr = none ∧ env.copyErr = none ∧
        env.dbCreateErr = some err ∧
        out = ⟨.error (.wrapf "failed to store file metadata" err),
          { disk := s.disk.write fullPath file, db := s.db },
          pre.1 ++ [(Call.osCreate fullPath, none), (Call.ioCopy fullPath file.length, none),
            (Call.repoCreate model, some err), (Call.fileClose fullPath, env.closeErr)]⟩) ∨
    (pre.2 = none ∧ env.createErr = none ∧ env.copyErr = none ∧ env.dbCreateErr = none ∧
        out = ⟨.ok (toResponse { model with ID := s.db.nextID }),
          { disk := s.disk.write fullPath file,
            db := { rows := s.db.rows ++ [{ model with ID := s.db.nextID }],
                    nextID := s.db.nextID + 1 } },
          pre.1 ++ [(Call.osCreate fullPath, none), (Call.ioCopy fullPath file.length, none),
            (Call.repoCreate model, none), (Call.fileClose fullPath, env.closeErr)]⟩) := by
  intro pre newName fullPath model out
  cases h1 : (ensureDir basePath env).2 with
  | some err => left; exact ⟨err, rfl, by simp [out, UploadFile, h1]⟩
  | none =>
    right
    cases h2 : env.createErr with
    | some err => left; exact ⟨err, rfl, rfl, by simp [out, UploadFile, h1, h2, pre, fullPath, newName]⟩
    | none =>
      right
      cases h3 : env.copyErr with
      | some ke =>
        obtain ⟨k, err⟩ := ke
        left; exact ⟨k, err, rfl, rfl, rfl, by simp [out, UploadFile, h1, h2, h3, pre, fullPath, newName]⟩
      | none =>
        right
        cases h4 : env.dbCreateErr with
        | some err =>
          left
          exact ⟨err, rfl, rfl, rfl, rfl, by
            simp [out, UploadFile, h1, h2, h3, h4, pre, fullPath, newName, model, FileRepository.Create]⟩
        | none =>
          right
          exact ⟨rfl, rfl, rfl, rfl, by
            simp [out, UploadFile, h1, h2, h3, h4, pre, fullPath, newName, model, FileRepository.Create]⟩

/-! ## Lemmas on the stores -/

theorem Disk.fileExists_write (d : Disk) (p q : String) (b : List Nat) :
    (d.write p b).fileExists q = (decide (p = q) || d.fileExists q) := by
  by_cases h : p = q
  · simp [Disk.write, Disk.fileExists, h]
  · have h2 : ¬ q = p := fun e => h e.symm
    have hfun : (fun a : String × List Nat => (!(a.1 == p) && a.1 == q)) = fun f => f.1 == q := by
      funext f
      by_cases hf : f.1 = q <;> simp [hf, h2]
    simp [Disk.write, Disk.fileExists, hfun, h]

theorem Disk.fileExists_remove (d : Disk) (p q : String) :
    (d.remove p).fileExists q = (!decide (p = q) && d.fileExists q) := by
  by_cases h : p = q
  · subst h
    simp [Disk.remove, Disk.fileExists]
  · have h2 : ¬ q = p := fun e => h e.symm
    have hfun : (fun a : String × List Nat => (!(a.1 == p) && a.1 == q)) = fun f => f.1 == q := by
      funext f
      by_cases hf : f.1 = q <;> simp [hf, h2]
    simp [Disk.remove, Disk.fileExists, hfun, h]

theorem Disk.content_write (d : Disk) (p q : String) (b : List Nat) :
    (d.write p b).content q = if p = q then some b else d.content q := by
  by_cases h : p = q
  · simp [Disk.write, Disk.content, h]
  · have h2 : ¬ q = p := fun e => h e.symm
    simp only [Disk.write, Disk.content, h, if_false]
    rw [List.find?_cons_of_neg _ (by simpa using h), List.find?_filter]
    congr 2
    funext f
    by_cases hf : f.1 = q
    · simp [hf, h2]
    · simp [hf]

theorem Disk.content_remove (d : Disk) (p q : String) :
    (d.remove p).content q = if p = q then none else d.content q := by
  by_cases h : p = q
  · subst h
    simp [Disk.remove, Disk.content]
  · have h2 : ¬ q = p := fun e => h e.symm
    simp only [Disk.remove, Disk.content, h, if_false]
    rw [List.find?_filter]
    congr 2
    funext f
    by_cases hf : f.1 = q
    · simp [hf, h2]
    · simp [hf]

theorem FindByID_ok_iff (db : DB) (gormErr : Option Err) (id : Nat) (f : File) :
    FileRepository.FindByID db gormErr id = .ok f ↔
      gormErr = none ∧ db.rows.find? (fun r => r.ID == id) = some f := by
  unfold FileRepository.FindByID
  cases gormErr with
  | some err => simp
  | none =>
    cases h : db.rows.find? (fun r => r.ID == id) with
    | some g => simp
    | none => simp

/-- The four ways through `DeleteFile`. -/
theorem DeleteFile_cases (env : Env) (s : State) (fileID : Nat) :
    let out := DeleteFile env s fileID
    (∃ err, FileRepository.FindByID s.db env.dbFindErr fileID = .error err ∧
        out = ⟨.error (.wrapf "file not found" err), s, [(Call.repoFindByID fileID, some err)]⟩) ∨
    (∃ file err, FileRepository.FindByID s.db env.dbFindErr fileID = .ok file ∧
        (osRemove s.disk env.removeErr file.Filepath).1 = some err ∧
        out = ⟨.error (.wrapf "failed to delete file from fisk" err), s,
          [(Call.repoFindByID fileID, none), (Call.osRemove file.Filepath, some err)]⟩) ∨
    (∃ file err, FileRepository.FindByID s.db env.dbFindErr fileID = .ok file ∧
        env.removeErr = none ∧ s.disk.fileExists file.Filepath = true ∧
        env.dbDeleteErr = some err ∧
        out = ⟨.error (.wrapf "failed to delete file metadata" err),
          { disk := s.disk.remove file.Filepath, db := s.db },
          [(Call.repoFindByID fileID, none), (Call.osRemove file.Filepath, none),
            (Call.repoDelete fileID, some err)]⟩) ∨
    (∃ file, FileRepository.FindByID s.db env.dbFindErr fileID = .ok file ∧
        env.removeErr = none ∧ s.disk.fileExists file.Filepath = true ∧
        env.dbDeleteErr = none ∧
        out = ⟨.ok (),
          { disk := s.disk.remove file.Filepath,
            db := { rows := s.db.rows.filter (fun r => !(r.ID == fileID)),
                    nextID := s.db.nextID } },
          [(Call.repoFindByID fileID, none), (Call.osRemove file.Filepath, none),
            (Call.repoDelete fileID, none)]⟩) := by
  intro out
  cases h1 : FileRepository.FindByID s.db env.dbFindErr fileID with
  | error err => left; exact ⟨err, rfl, by simp [out, DeleteFile, h1]⟩
  | ok file =>
    right
    cases h2 : env.removeErr with
    | some err =>
      left
      exact ⟨file, err, rfl, by simp [osRemove, h2], by simp [out, DeleteFile, h1, osRemove, h2]⟩
    | none =>
      cases h3 : s.disk.fileExists file.Filepath with
      | false =>
        left
        exact ⟨file, .ErrNotExist, rfl, by simp [osRemove, h2, h3],
          by simp [out, DeleteFile, h1, osRemove, h2, h3]⟩
      | true =>
        right
        cases h4 : env.dbDeleteErr with
        | some err =>
          left
          exact ⟨file, err, rfl, rfl, h3, rfl,
            by simp [out, DeleteFile, h1, osRemove, h2, h3, h4, FileRepository.Delete]⟩
        | none =>
          right
          exact ⟨file, rfl, rfl, h3, rfl,
            by simp [out, DeleteFile, h1, osRemove, h2, h3, h4, FileRepository.Delete]⟩

/-! ## Claims -/

/-- C1: when `os.Create` of the destination file or `io.Copy` of the content
into it returns an error, `UploadFile` returns an error, the repository method
`Create` is not called, and the table of rows is the one before the call. -/
theorem uploadFile_write_failure_no_db_write (basePath : String) (env : Env) (s : State)
    (userID : Nat) (file : List Nat) (header : FileHeader) (request : UploadFileRequest)
    (c : Call) (e : Err)
    (hc : (∃ p, c = Call.osCreate p) ∨ (∃ p n, c = Call.ioCopy p n))
    (hmem : (c, some e) ∈ (UploadFile basePath env s userID file header request).trace) :
    (UploadFile basePath env s userID file header request).failed ∧
      ¬ callsCreate (UploadFile basePath env s userID file header request).trace ∧
      (UploadFile basePath env s userID file header request).state.db = s.db := by
  have hpre := ensureDir_events basePath env
  have hstat : ∀ f e2, (Call.repoCreate f, e2) ∈ (ensureDir basePath env).1 → False := by
    intro f e2 h
    rcases hpre _ h with h | ⟨h, -⟩ <;> simp at h
  have hcpre : (c, some e) ∈ (ensureDir basePath env).1 → False := by
    intro h
    rcases hc with ⟨p, rfl⟩ | ⟨p, n, rfl⟩ <;> rcases hpre _ h with h | ⟨h, -⟩ <;> simp at h
  rcases UploadFile_cases basePath env s userID file header request with
    ⟨err, -, h⟩ | ⟨err, -, -, h⟩ | ⟨k, err, -, -, -, h⟩ | ⟨err, -, -, -, -, h⟩ | ⟨-, -, -, -, h⟩
  · rw [h] at hmem
    exact (hcpre hmem).elim
  · rw [h]
    refine ⟨⟨_, rfl⟩, ?_, rfl⟩
    rintro ⟨f, e2, hf⟩
    simp only [List.mem_append, List.mem_singleton, Prod.mk.injEq, reduceCtorEq, false_and,
      or_false] at hf
    exact hstat f e2 hf
  · rw [h]
    refine ⟨⟨_, rfl⟩, ?_, rfl⟩
    rintro ⟨f, e2, hf⟩
    simp only [List.mem_append, List.mem_cons, Prod.mk.injEq, reduceCtorEq, false_and,
      List.mem_nil_iff, or_false] at hf
    exact hstat f e2 hf
  · rw [h] at hmem
    rcases hc with ⟨p, rfl⟩ | ⟨p, n, rfl⟩ <;>
      simp only [List.mem_append, List.mem_cons, Prod.mk.injEq, reduceCtorEq, false_and, and_false,
        List.mem_nil_iff, or_false] at hmem <;>
      exact (hcpre hmem).elim
  · rw [h] at hmem
    rcases hc with ⟨p, rfl⟩ | ⟨p, n, rfl⟩ <;>
      simp only [List.mem_append, List.mem_cons, Prod.mk.injEq, reduceCtorEq, false_and, and_false,
        List.mem_nil_iff, or_false] at hmem <;>
      exact (hcpre hmem).elim

/-- C1, at an input: the destination file cannot be created. -/
theorem uploadFile_write_failure_no_db_write_witness :
    (Call.osCreate "uploads/00010203-0405-0607-0809-0a0b0c0d0e0f.pdf",
        some (Err.other "permission denied")) ∈
      (UploadFile "uploads" envCreateFails State.init 7 [1, 2, 3] headerReport ⟨none⟩).trace ∧
    (UploadFile "uploads" envCreateFails State.init 7 [1, 2, 3] headerReport ⟨none⟩).failed ∧
    ¬ callsCreate (UploadFile "uploads" envCreateFails State.init 7 [1, 2, 3] headerReport
      ⟨none⟩).trace ∧
    (UploadFile "uploads" envCreateFails State.init 7 [1, 2, 3] headerReport ⟨none⟩).state.db
      = State.init.db :=
  ⟨by decide,
    uploadFile_write_failure_no_db_write "uploads" envCreateFails State.init 7 [1, 2, 3]
      headerReport ⟨none⟩ (Call.osCreate "uploads/00010203-0405-0607-0809-0a0b0c0d0e0f.pdf")
      (Err.other "permission denied") (Or.inl ⟨_, rfl⟩) (by decide)⟩

/-- C5: when `os.Remove` of the stored path of an existing record returns an
error, `DeleteFile` returns that error wrapped, the repository method `Delete`
is not called, and the row is still there, unchanged (as is the whole state). -/
theorem deleteFile_remove_failure (env : Env) (s : State) (id : Nat) (r : File) (path : String)
    (e : Err) (hrow : s.db.rows.find? (fun x => x.ID == id) = some r)
    (hmem : (Call.osRemove path, some e) ∈ (DeleteFile env s id).trace) :
    (DeleteFile env s id).res = .error (.wrapf "failed to delete file from fisk" e) ∧
      path = r.Filepath ∧
      ¬ callsDelete (DeleteFile env s id).trace ∧
      (DeleteFile env s id).state = s ∧
      (DeleteFile env s id).state.db.rows.find? (fun x => x.ID == id) = some r := by
  rcases DeleteFile_cases env s id with
    ⟨err, hf, h⟩ | ⟨file, err, hf, -, h⟩ | ⟨file, err, hf, -, -, -, h⟩ | ⟨file, hf, -, -, -, h⟩
  · rw [h] at hmem
    simp at hmem
  · rw [h] at hmem ⊢
    rw [FindByID_ok_iff, hrow] at hf
    obtain ⟨-, hfr⟩ := hf
    cases hfr
    simp only [List.mem_cons, Prod.mk.injEq, reduceCtorEq, false_and, Call.osRemove.injEq,
      Option.some.injEq, List.mem_nil_iff, or_false, false_or] at hmem
    obtain ⟨rfl, rfl⟩ := hmem
    refine ⟨rfl, rfl, ?_, rfl, hrow⟩
    rintro ⟨i, e2, hd⟩
    simp at hd
  · rw [h] at hmem
    simp at hmem
  · rw [h] at hmem
    simp at hmem

/-- C5, at an input: the one file of `stateOneFile` cannot be removed. -/
theorem deleteFile_remove_failure_witness :
    stateOneFile.db.rows.find? (fun x => x.ID == 1) = some rowReport ∧
    (Call.osRemove rowReport.Filepath, some (Err.other "permission denied")) ∈
      (DeleteFile envRemoveFails stateOneFile 1).trace ∧
    (DeleteFile envRemoveFails stateOneFile 1).res =
      .error (.wrapf "failed to delete file from fisk" (Err.other "permission denied")) ∧
    rowReport.Filepath = rowReport.Filepath ∧
    ¬ callsDelete (DeleteFile envRemoveFails stateOneFile 1).trace ∧
    (DeleteFile envRemoveFails stateOneFile 1).state = stateOneFile ∧
    (DeleteFile envRemoveFails stateOneFile 1).state.db.rows.find? (fun x => x.ID == 1)
      = some rowReport :=
  ⟨by decide, by decide,
    deleteFile_remove_failure envRemoveFails stateOneFile 1 rowReport rowReport.Filepath
      (Err.other "permission denied") (by decide) (by decide)⟩

/-- C7: after `DeleteFile` has returned without error, `GetFileByID` on the
same identifier returns a `file not found` error (wrapping the not-found error
of the repository when the query itself does not fail), and no file is on disk
at the stored path of the deleted record. -/
theorem deleteFile_then_getFileByID (env env2 : Env) (s : State) (id : Nat)
    (hok : (DeleteFile env s id).res = .ok ()) :
    (∃ e, (GetFileByID env2 (DeleteFile env s id).state id).res
          = .error (.wrapf "file not found" e) ∧
        (env2.dbFindErr = none → e = Err.ErrRecordNotFound)) ∧
    (∃ r, FileRepository.FindByID s.db env.dbFindErr id = .ok r ∧
        (DeleteFile env s id).state.disk.fileExists r.Filepath = false) := by
  rcases DeleteFile_cases env s id with
    ⟨err, hf, h⟩ | ⟨file, err, hf, -, h⟩ | ⟨file, err, hf, -, -, -, h⟩ | ⟨file, hf, -, -, -, h⟩
  · rw [h] at hok
    cases hok
  · rw [h] at hok
    cases hok
  · rw [h] at hok
    cases hok
  · rw [h]
    refine ⟨?_, file, hf, ?_⟩
    · have hnone : (List.filter (fun r => !(r.ID == id)) s.db.rows).find? (fun r => r.ID == id)
          = none := by
        simp
      cases hq : env2.dbFindErr with
      | some e2 =>
        exact ⟨e2, by simp [GetFileByID, FileRepository.FindByID, hq], by simp⟩
      | none =>
        exact ⟨Err.ErrRecordNotFound,
          by simp only [GetFileByID, FileRepository.FindByID, hq, hnone], fun _ => rfl⟩
    · simp [Disk.fileExists_remove]

/-- C7, at an input: the one file of `stateOneFile` is deleted. -/
theorem deleteFile_then_getFileByID_witness :
    (DeleteFile (Env.quiet uuidA 6) stateOneFile 1).res = .ok () ∧
    (∃ e, (GetFileByID (Env.quiet uuidA 7) (DeleteFile (Env.quiet uuidA 6) stateOneFile 1).state
            1).res = .error (.wrapf "file not found" e) ∧
        ((Env.quiet uuidA 7).dbFindErr = none → e = Err.ErrRecordNotFound)) ∧
    (∃ r, FileRepository.FindByID stateOneFile.db (Env.quiet uuidA 6).dbFindErr 1 = .ok r ∧
        (DeleteFile (Env.quiet uuidA 6) stateOneFile 1).state.disk.fileExists r.Filepath
          = false) :=
  ⟨rfl, deleteFile_then_getFileByID (Env.quiet uuidA 6) (Env.quiet uuidA 7) stateOneFile 1 rfl⟩

/-- C8, as stated, fails: user 9 has no row in `stateOneFile`, the query of the
repository fails, and `ListUserFiles` returns an error, not the empty list. -/
theorem listUserFiles_query_failure_counterexample :
    (∀ r ∈ stateOneFile.db.rows, r.UserID ≠ 9) ∧
    (ListUserFiles envDbListFails stateOneFile 9).res
      = .error (.wrapf "failed to fetch user file" (Err.other "connection lost")) ∧
    (ListUserFiles envDbListFails stateOneFile 9).res ≠ .ok [] := by
  decide

/-- C8, amended: when the query of the repository does not fail, `ListUserFiles`
returns one response per row whose owner is the given user and no other, in
the order of the table, each response carrying the fields of its row; when the
owner has no row that is the empty list, without error.  When the query fails,
it returns the error of the query, wrapped.  The state is unchanged. -/
theorem listUserFiles_exact (env : Env) (s : State) (owner : Nat) :
    (env.dbListErr = none →
      ∃ resps, (ListUserFiles env s owner).res = .ok resps ∧
        List.Forall₂ carriesRow resps (s.db.rows.filter (fun r => r.UserID == owner)) ∧
        ((∀ r ∈ s.db.rows, r.UserID ≠ owner) → resps = [])) ∧
    (∀ e, env.dbListErr = some e →
      (ListUserFiles env s owner).res = .error (.wrapf "failed to fetch user file" e)) ∧
    (ListUserFiles env s owner).state = s := by
  refine ⟨?_, ?_, ?_⟩
  · intro hq
    refine ⟨(s.db.rows.filter (fun r => r.UserID == owner)).map toResponse, ?_, ?_, ?_⟩
    · simp [ListUserFiles, FileRepository.ListUserFiles, hq]
    · rw [List.forall₂_map_left_iff, List.forall₂_same]
      intro r _
      exact ⟨rfl, rfl, rfl, rfl, rfl, rfl, rfl, rfl⟩
    · intro hno
      have hnil : s.db.rows.filter (fun r => r.UserID == owner) = [] := by
        simpa [List.filter_eq_nil_iff] using hno
      rw [hnil]
      rfl
  · intro e he
    simp [ListUserFiles, FileRepository.ListUserFiles, he]
  · unfold ListUserFiles
    split <;> rfl

/-- C8, amended, at an input: in `stateTwoFiles` user 7 has the first of the
two rows and user 9 has none. -/
theorem listUserFiles_exact_witness :
    (Env.quiet uuidA 7).dbListErr = none ∧
    stateTwoFiles.db.rows = [rowReport, rowNotes] ∧
    (ListUserFiles (Env.quiet uuidA 7) stateTwoFiles 7).res
      = .ok [{ ID := 1, UserId := 7, FolderId := none,
               FileName := "00010203-0405-0607-0809-0a0b0c0d0e0f.pdf",
               FilePath := "uploads/00010203-0405-0607-0809-0a0b0c0d0e0f.pdf",
               MimeType := "application/pdf", Size := 500, CreatedAt := 5 }] ∧
    (∃ resps, (ListUserFiles (Env.quiet uuidA 7) stateTwoFiles 7).res = .ok resps ∧
      List.Forall₂ carriesRow resps (stateTwoFiles.db.rows.filter (fun r => r.UserID == 7)) ∧
      ((∀ r ∈ stateTwoFiles.db.rows, r.UserID ≠ 7) → resps = [])) ∧
    (∀ r ∈ stateTwoFiles.db.rows, r.UserID ≠ 9) ∧
    (∃ resps, (ListUserFiles (Env.quiet uuidA 7) stateTwoFiles 9).res = .ok resps ∧
      resps = []) :=
  have hno : ∀ r ∈ stateTwoFiles.db.rows, r.UserID ≠ 9 := by decide
  ⟨rfl, by decide, by decide,
    (listUserFiles_exact (Env.quiet uuidA 7) stateTwoFiles 7).1 rfl, hno,
    match (listUserFiles_exact (Env.quiet uuidA 7) stateTwoFiles 9).1 rfl with
    | ⟨resps, hres, _, hempty⟩ => ⟨resps, hres, hempty hno⟩⟩

/-- C6: after a successful `UploadFile`, on a table whose identifiers are below
the next one assigned and with a lookup that does not fail, `GetFileByID` on
the returned identifier succeeds with a record that has the owner, group,
name, path, MIME type and size of the record `UploadFile` returned. -/
theorem uploadFile_then_getFileByID (basePath : String) (env env2 : Env) (s : State)
    (userID : Nat) (file : List Nat) (header : FileHeader) (request : UploadFileRequest)
    (resp : FileResponse) (hwf : s.db.wf) (hq : env2.dbFindErr = none)
    (hok : (UploadFile basePath env s userID file header request).res = .ok resp) :
    ∃ got, (GetFileByID env2 (UploadFile basePath env s userID file header request).state
          resp.ID).res = .ok got ∧
      got.UserId = resp.UserId ∧ got.FolderId = resp.FolderId ∧ got.FileName = resp.FileName ∧
      got.FilePath = resp.FilePath ∧ got.MimeType = resp.MimeType ∧ got.Size = resp.Size := by
  rcases UploadFile_cases basePath env s userID file header request with
    ⟨err, -, h⟩ | ⟨err, -, -, h⟩ | ⟨k, err, -, -, -, h⟩ | ⟨err, -, -, -, -, h⟩ | ⟨-, -, -, -, h⟩
  · rw [h] at hok
    cases hok
  · rw [h] at hok
    cases hok
  · rw [h] at hok
    cases hok
  · rw [h] at hok
    cases hok
  · rw [h] at hok ⊢
    simp only [Except.ok.injEq] at hok
    subst hok
    have hold : s.db.rows.find? (fun r => r.ID == s.db.nextID) = none := by
      rw [List.find?_eq_none]
      intro r hr
      have := hwf r hr
      simp
      omega
    refine ⟨_, ?_, rfl, rfl, rfl, rfl, rfl, rfl⟩
    simp [GetFileByID, FileRepository.FindByID, hq, toResponse, List.find?_append, hold]

/-- C6, at an input: the upload of `report.pdf` into the fresh installation. -/
theorem uploadFile_then_getFileByID_witness :
    State.init.db.wf ∧ (Env.quiet uuidB 6).dbFindErr = none ∧
    (UploadFile "uploads" (Env.quiet uuidA 5) State.init 7 [1, 2, 3] headerReport ⟨none⟩).res
      = .ok (toResponse rowReport) ∧
    ∃ got, (GetFileByID (Env.quiet uuidB 6)
          (UploadFile "uploads" (Env.quiet uuidA 5) State.init 7 [1, 2, 3] headerReport
            ⟨none⟩).state (toResponse rowReport).ID).res = .ok got ∧
      got.UserId = (toResponse rowReport).UserId ∧
      got.FolderId = (toResponse rowReport).FolderId ∧
      got.FileName = (toResponse rowReport).FileName ∧
      got.FilePath = (toResponse rowReport).FilePath ∧
      got.MimeType = (toResponse rowReport).MimeType ∧
      got.Size = (toResponse rowReport).Size :=
  ⟨by simp [DB.wf, State.init], rfl, by decide,
    uploadFile_then_getFileByID "uploads" (Env.quiet uuidA 5) (Env.quiet uuidB 6) State.init 7
      [1, 2, 3] headerReport ⟨none⟩ (toResponse rowReport) (by simp [DB.wf, State.init]) rfl
      (by decide)⟩

/-- C2, as stated, fails: a stream of 3 bytes uploaded under a header that
declares 500 bytes succeeds, 3 bytes are copied and are the content of the
file, and the returned and the stored size are 500. -/
theorem uploadFile_size_counterexample :
    (UploadFile "uploads" (Env.quiet uuidA 5) State.init 7 [1, 2, 3] headerReport ⟨none⟩).res
      = .ok (toResponse rowReport) ∧
    (UploadFile "uploads" (Env.quiet uuidA 5) State.init 7 [1, 2, 3] headerReport ⟨none⟩).trace
      = [(Call.osStat "uploads", none), (Call.osCreate rowReport.Filepath, none),
          (Call.ioCopy rowReport.Filepath 3, none),
          (Call.repoCreate { rowReport with ID := 0 }, none),
          (Call.fileClose rowReport.Filepath, none)] ∧
    (UploadFile "uploads" (Env.quiet uuidA 5) State.init 7 [1, 2, 3] headerReport
      ⟨none⟩).state.disk.content rowReport.Filepath = some [1, 2, 3] ∧
    (UploadFile "uploads" (Env.quiet uuidA 5) State.init 7 [1, 2, 3] headerReport
      ⟨none⟩).state.db.rows = [rowReport] ∧
    (toResponse rowReport).Size = 500 ∧ rowReport.Size = 500 ∧
    (toResponse rowReport).Size ≠ ((3 : Nat) : Int) := by
  decide

/-- C2, amended: for every `UploadFile` call that succeeds, the size of the
returned record and of the stored row is the size declared in the multipart
header; the whole stream was copied and is the content of the file at the
returned path; so the size is the number of bytes copied whenever the header
declares the length of the stream. -/
theorem uploadFile_size_is_declared (basePath : String) (env : Env) (s : State)
    (userID : Nat) (file : List Nat) (header : FileHeader) (request : UploadFileRequest)
    (resp : FileResponse)
    (hok : (UploadFile basePath env s userID file header request).res = .ok resp) :
    resp.Size = header.Size ∧
    (∃ row ∈ (UploadFile basePath env s userID file header request).state.db.rows,
      toResponse row = resp ∧ row.Size = header.Size) ∧
    (∀ p n e, (Call.ioCopy p n, e) ∈ (UploadFile basePath env s userID file header request).trace →
      p = resp.FilePath ∧ n = file.length ∧ e = none) ∧
    (UploadFile basePath env s userID file header request).state.disk.content resp.FilePath
      = some file ∧
    (header.Size = (file.length : Int) → resp.Size = (file.length : Int)) := by
  have hpre := ensureDir_events basePath env
  rcases UploadFile_cases basePath env s userID file header request with
    ⟨err, -, h⟩ | ⟨err, -, -, h⟩ | ⟨k, err, -, -, -, h⟩ | ⟨err, -, -, -, -, h⟩ | ⟨-, -, -, -, h⟩
  · rw [h] at hok
    cases hok
  · rw [h] at hok
    cases hok
  · rw [h] at hok
    cases hok
  · rw [h] at hok
    cases hok
  · rw [h] at hok ⊢
    simp only [Except.ok.injEq] at hok
    subst hok
    refine ⟨rfl, ⟨_, by simp, rfl, rfl⟩, ?_, ?_, fun hs => hs⟩
    · intro p n e hmem
      simp only [List.mem_append, List.mem_cons, Prod.mk.injEq, reduceCtorEq, false_and,
        Call.ioCopy.injEq, List.mem_nil_iff, or_false, false_or] at hmem
      rcases hmem with hmem | ⟨⟨rfl, rfl⟩, rfl⟩
      · rcases hpre _ hmem with h2 | ⟨h2, -⟩ <;> simp at h2
      · exact ⟨rfl, rfl, rfl⟩
    · simp [Disk.content_write, toResponse]

/-- C2, amended, at an input: 3 bytes uploaded under a header that declares 3. -/
theorem uploadFile_size_is_declared_witness :
    (UploadFile "uploads" (Env.quiet uuidA 5) State.init 7 [1, 2, 3]
      { headerReport with Size := 3 } ⟨none⟩).res
      = .ok (toResponse { rowReport with Size := 3 }) ∧
    (toResponse { rowReport with Size := 3 }).Size = 3 :=
  ⟨by decide,
    (uploadFile_size_is_declared "uploads" (Env.quiet uuidA 5) State.init 7 [1, 2, 3]
      { headerReport with Size := 3 } ⟨none⟩ (toResponse { rowReport with Size := 3 })
      (by decide)).1⟩

/-- C10, as stated, fails: `os.Stat` reports the directory absent, or the
deferred `Close` returns an error, and `UploadFile` still returns a record and
no error. -/
theorem service_swallows_stat_and_close_counterexample :
    ((Call.osStat "uploads", some Err.ErrNotExist) ∈
        (UploadFile "uploads" envDirAbsent State.init 7 [1, 2, 3] headerReport ⟨none⟩).trace ∧
      (UploadFile "uploads" envDirAbsent State.init 7 [1, 2, 3] headerReport ⟨none⟩).res
        = .ok (toResponse rowReport)) ∧
    ((Call.fileClose rowReport.Filepath, some (Err.other "input/output error")) ∈
        (UploadFile "uploads" envCloseFails State.init 7 [1, 2, 3] headerReport ⟨none⟩).trace ∧
      (UploadFile "uploads" envCloseFails State.init 7 [1, 2, 3] headerReport ⟨none⟩).res
        = .ok (toResponse rowReport)) := by
  decide

/-- C10, amended: in `UploadFile`, `GetFileByID`, `ListUserFiles` and
`DeleteFile`, whenever a collaborator call other than `os.Stat` and the
deferred `Close` (that is `os.MkdirAll`, `os.Create`, `io.Copy`, `os.Remove`,
and the repository methods `Create`, `FindByID`, `ListUserFiles`, `Delete`)
returns an error, the operation returns an error that wraps it. -/
theorem service_returns_collaborator_errors (basePath : String) (env : Env) (s : State)
    (userID : Nat) (file : List Nat) (header : FileHeader) (request : UploadFileRequest)
    (id : Nat) (c : Call) (e : Err) (hc : c.isProbeOrClose = false) :
    ((c, some e) ∈ (UploadFile basePath env s userID file header request).trace →
      ∃ ctx, (UploadFile basePath env s userID file header request).res
        = .error (.wrapf ctx e)) ∧
    ((c, some e) ∈ (GetFileByID env s id).trace →
      ∃ ctx, (GetFileByID env s id).res = .error (.wrapf ctx e)) ∧
    ((c, some e) ∈ (ListUserFiles env s userID).trace →
      ∃ ctx, (ListUserFiles env s userID).res = .error (.wrapf ctx e)) ∧
    ((c, some e) ∈ (DeleteFile env s id).trace →
      ∃ ctx, (DeleteFile env s id).res = .error (.wrapf ctx e)) := by
  refine ⟨?_, ?_, ?_, ?_⟩
  · intro hmem
    have hpre : (c, some e) ∈ (ensureDir basePath env).1 → (ensureDir basePath env).2 = some e := by
      intro h
      rcases ensureDir_events basePath env _ h with h2 | ⟨h2, h3⟩
      · simp only [Prod.mk.injEq] at h2
        rw [h2.1] at hc
        simp [Call.isProbeOrClose] at hc
      · simp only [Prod.mk.injEq] at h2
        rw [h3, ← h2.2]
    rcases UploadFile_cases basePath env s userID file header request with
      ⟨err, h0, h⟩ | ⟨err, h0, -, h⟩ | ⟨k, err, h0, -, -, h⟩ | ⟨err, h0, -, -, -, h⟩ |
      ⟨h0, -, -, -, h⟩
    · rw [h] at hmem ⊢
      have := hpre hmem
      rw [h0] at this
      cases this
      exact ⟨_, rfl⟩
    all_goals
      rw [h] at hmem ⊢
      simp only [List.mem_append, List.mem_cons, Prod.mk.injEq, List.mem_nil_iff, or_false,
        reduceCtorEq, and_false, false_or, Option.some.injEq] at hmem
      rcases hmem with hmem | hmem
      · have := hpre hmem
        rw [h0] at this
        cases this
    · obtain ⟨-, rfl⟩ := hmem
      exact ⟨_, rfl⟩
    · rcases hmem with ⟨-, rfl⟩ | ⟨h1, -⟩
      · exact ⟨_, rfl⟩
      · rw [h1] at hc
        simp [Call.isProbeOrClose] at hc
    · rcases hmem with ⟨-, rfl⟩ | ⟨h1, -⟩
      · exact ⟨_, rfl⟩
      · rw [h1] at hc
        simp [Call.isProbeOrClose] at hc
    · rw [hmem.1] at hc
      simp [Call.isProbeOrClose] at hc
  · intro hmem
    unfold GetFileByID at hmem ⊢
    split at hmem <;> simp_all
  · intro hmem
    unfold ListUserFiles at hmem ⊢
    split at hmem <;> simp_all
  · intro hmem
    rcases DeleteFile_cases env s id with
      ⟨err, hf, h⟩ | ⟨file, err, hf, -, h⟩ | ⟨file, err, hf, -, -, -, h⟩ | ⟨file, hf, -, -, -, h⟩
    all_goals
      rw [h] at hmem ⊢
      simp at hmem
    · exact ⟨_, by rw [hmem.2]⟩
    · exact ⟨_, by rw [hmem.2]⟩
    · exact ⟨_, by rw [hmem.2]⟩

/-- C10, amended, at an input: `os.Create` fails with `permission denied`. -/
theorem service_returns_collaborator_errors_witness :
    (Call.osCreate rowReport.Filepath).isProbeOrClose = false ∧
    (Call.osCreate rowReport.Filepath, some (Err.other "permission denied")) ∈
      (UploadFile "uploads" envCreateFails State.init 7 [1, 2, 3] headerReport ⟨none⟩).trace ∧
    ∃ ctx, (UploadFile "uploads" envCreateFails State.init 7 [1, 2, 3] headerReport ⟨none⟩).res
      = .error (.wrapf ctx (Err.other "permission denied")) :=
  ⟨rfl, by decide,
    (service_returns_collaborator_errors "uploads" envCreateFails State.init 7 [1, 2, 3]
      headerReport ⟨none⟩ 1 (Call.osCreate rowReport.Filepath) (Err.other "permission denied")
      rfl).1 (by decide)⟩

/-- C3, as stated, fails.  First: the file of the one row of `stateOneFile` is
removed, the statement behind the repository method `Delete` then fails, and
`DeleteFile` leaves the row without its file.  Second: two rows of
`stateSharedPath` have the same stored path, and a successful `DeleteFile` of
one leaves the other without its file. -/
theorem rowsHaveFiles_broken_counterexample :
    (RowsHaveFiles stateOneFile ∧
      (DeleteFile envDbDeleteFails stateOneFile 1).res
        = .error (.wrapf "failed to delete file metadata" (Err.other "connection lost")) ∧
      (DeleteFile envDbDeleteFails stateOneFile 1).state.db.rows = [rowReport] ∧
      (DeleteFile envDbDeleteFails stateOneFile 1).state.disk.fileExists rowReport.Filepath
        = false ∧
      ¬ RowsHaveFiles (DeleteFile envDbDeleteFails stateOneFile 1).state) ∧
    (RowsHaveFiles stateSharedPath ∧
      (DeleteFile (Env.quiet uuidB 7) stateSharedPath 1).res = .ok () ∧
      ¬ RowsHaveFiles (DeleteFile (Env.quiet uuidB 7) stateSharedPath 1).state) := by
  decide

/-- C3, amended: every row has a file at its stored path in the initial state,
and this is preserved by every outcome of `UploadFile` (which removes no row
and no file), of `GetFileByID` and of `ListUserFiles` (which change nothing),
and by every outcome of `DeleteFile` in which the repository method `Delete`
does not fail, provided no row with another identifier has the stored path of
a row with the deleted identifier.  A `DeleteFile` that fails without a failure
of `Delete` changes nothing; a `DeleteFile` that succeeds removes the rows of
the identifier and the file at the stored path of the record together, and
leaves every other row and every other file as it was. -/
theorem rowsHaveFiles_preserved (basePath : String) (env : Env) (s : State)
    (userID : Nat) (file : List Nat) (header : FileHeader) (request : UploadFileRequest)
    (id : Nat) :
    RowsHaveFiles State.init ∧
    (RowsHaveFiles s →
      RowsHaveFiles (UploadFile basePath env s userID file header request).state) ∧
    (∀ r ∈ s.db.rows, r ∈ (UploadFile basePath env s userID file header request).state.db.rows) ∧
    (∀ q, s.disk.fileExists q = true →
      (UploadFile basePath env s userID file header request).state.disk.fileExists q = true) ∧
    (GetFileByID env s id).state = s ∧
    (ListUserFiles env s userID).state = s ∧
    (RowsHaveFiles s →
      (∀ e, (Call.repoDelete id, some e) ∉ (DeleteFile env s id).trace) →
      (∀ r1 ∈ s.db.rows, ∀ r2 ∈ s.db.rows, r1.ID = id → r2.ID ≠ id → r1.Filepath ≠ r2.Filepath) →
      RowsHaveFiles (DeleteFile env s id).state) ∧
    ((DeleteFile env s id).failed →
      (∀ e, (Call.repoDelete id, some e) ∉ (DeleteFile env s id).trace) →
      (DeleteFile env s id).state = s) ∧
    ((DeleteFile env s id).res = .ok () →
      ∃ gone, FileRepository.FindByID s.db env.dbFindErr id = .ok gone ∧
        s.disk.fileExists gone.Filepath = true ∧
        (DeleteFile env s id).state.disk.fileExists gone.Filepath = false ∧
        (∀ r ∈ (DeleteFile env s id).state.db.rows, r.ID ≠ id) ∧
        (DeleteFile env s id).state.db.rows = s.db.rows.filter (fun r => !(r.ID == id)) ∧
        (DeleteFile env s id).state.db.nextID = s.db.nextID ∧
        (∀ q, q ≠ gone.Filepath →
          (DeleteFile env s id).state.disk.fileExists q = s.disk.fileExists q ∧
          (DeleteFile env s id).state.disk.content q = s.disk.content q)) := by
  refine ⟨by simp [RowsHaveFiles, State.init], ?_, ?_, ?_, ?_, ?_, ?_, ?_, ?_⟩
  · intro hinv
    rcases UploadFile_cases basePath env s userID file header request with
      ⟨err, -, h⟩ | ⟨err, -, -, h⟩ | ⟨k, err, -, -, -, h⟩ | ⟨err, -, -, -, -, h⟩ | ⟨-, -, -, -, h⟩
    · rw [h]
      exact hinv
    · rw [h]
      exact hinv
    · rw [h]
      intro r hr
      simp [Disk.fileExists_write, hinv r hr]
    · rw [h]
      intro r hr
      simp [Disk.fileExists_write, hinv r hr]
    · rw [h]
      intro r hr
      simp only [List.mem_append, List.mem_singleton] at hr
      rcases hr with hr | rfl
      · simp [Disk.fileExists_write, hinv r hr]
      · simp [Disk.fileExists_write]
  · intro r hr
    rcases UploadFile_cases basePath env s userID file header request with
      ⟨err, -, h⟩ | ⟨err, -, -, h⟩ | ⟨k, err, -, -, -, h⟩ | ⟨err, -, -, -, -, h⟩ | ⟨-, -, -, -, h⟩
    all_goals
      rw [h]
      simp [hr]
  · intro q hq
    rcases UploadFile_cases basePath env s userID file header request with
      ⟨err, -, h⟩ | ⟨err, -, -, h⟩ | ⟨k, err, -, -, -, h⟩ | ⟨err, -, -, -, -, h⟩ | ⟨-, -, -, -, h⟩
    all_goals
      rw [h]
      simp [Disk.fileExists_write, hq]
  · unfold GetFileByID
    split <;> rfl
  · unfold ListUserFiles
    split <;> rfl
  · intro hinv hdel hpaths
    rcases DeleteFile_cases env s id with
      ⟨err, hf, h⟩ | ⟨gone, err, hf, -, h⟩ | ⟨gone, err, hf, -, -, -, h⟩ | ⟨gone, hf, -, -, -, h⟩
    · rw [h]
      exact hinv
    · rw [h]
      exact hinv
    · rw [h] at hdel
      exact absurd (by simp) (hdel err)
    · rw [h]
      intro r hr
      simp only [List.mem_filter, Bool.not_eq_true', beq_eq_false_iff_ne, ne_eq] at hr
      obtain ⟨hr, hid⟩ := hr
      rw [FindByID_ok_iff] at hf
      have hfile := List.find?_some hf.2
      have hfmem := List.mem_of_find?_eq_some hf.2
      simp only [beq_iff_eq] at hfile
      have := hpaths gone hfmem r hr hfile hid
      simp [Disk.fileExists_remove, hinv r hr, this]
  · intro hfail hdel
    rcases DeleteFile_cases env s id with
      ⟨err, hf, h⟩ | ⟨gone, err, hf, -, h⟩ | ⟨gone, err, hf, -, -, -, h⟩ | ⟨gone, hf, -, -, -, h⟩
    · rw [h]
    · rw [h]
    · rw [h] at hdel
      exact absurd (by simp) (hdel err)
    · rw [h] at hfail
      obtain ⟨e, he⟩ := hfail
      cases he
  · intro hok
    rcases DeleteFile_cases env s id with
      ⟨err, hf, h⟩ | ⟨gone, err, hf, -, h⟩ | ⟨gone, err, hf, -, -, -, h⟩ | ⟨gone, hf, -, hex, -, h⟩
    · rw [h] at hok
      cases hok
    · rw [h] at hok
      cases hok
    · rw [h] at hok
      cases hok
    · rw [h]
      refine ⟨gone, hf, hex, by simp [Disk.fileExists_remove], ?_, rfl, rfl, ?_⟩
      · intro r hr
        simpa using (List.mem_filter.1 hr).2
      · intro q hq
        have hne : ¬ gone.Filepath = q := fun e => hq e.symm
        exact ⟨by simp [Disk.fileExists_remove, hne], by simp [Disk.content_remove, hne]⟩

/-! ## Lemmas on identifiers and paths -/

theorem hexDigit_injective (a b : Fin 16) (h : hexDigit a.val = hexDigit b.val) : a = b := by
  revert a b
  decide

theorem hexDigit_mem (a : Fin 16) : hexDigit a.val ∈ hextable := by
  revert a
  decide

theorem hextable_plain (c : Char) (h : c ∈ hextable) : c ≠ '/' ∧ c ≠ '.' := by
  revert c
  decide

theorem hexEncode_length (l : List (Fin 256)) : (hexEncode l).length = 2 * l.length := by
  induction l with
  | nil => rfl
  | cons v rest ih => simp [hexEncode, ih]; omega

theorem hexEncode_injective (l1 l2 : List (Fin 256)) (h : hexEncode l1 = hexEncode l2) :
    l1 = l2 := by
  induction l1 generalizing l2 with
  | nil =>
    cases l2 with
    | nil => rfl
    | cons w rest => simp [hexEncode] at h
  | cons v rest ih =>
    cases l2 with
    | nil => simp [hexEncode] at h
    | cons w rest2 =>
      simp only [hexEncode, List.cons.injEq] at h
      obtain ⟨h1, h2, h3⟩ := h
      have hv1 : v.val / 16 < 16 := by omega
      have hw1 : w.val / 16 < 16 := by omega
      have hv2 : v.val % 16 < 16 := by omega
      have hw2 : w.val % 16 < 16 := by omega
      have e1 := hexDigit_injective ⟨v.val / 16, hv1⟩ ⟨w.val / 16, hw1⟩ h1
      have e2 := hexDigit_injective ⟨v.val % 16, hv2⟩ ⟨w.val % 16, hw2⟩ h2
      simp only [Fin.mk.injEq] at e1 e2
      have hvw : v = w := by
        apply Fin.ext
        omega
      rw [hvw, ih rest2 h3]

theorem hexEncode_plain (l : List (Fin 256)) (c : Char) (h : c ∈ hexEncode l) :
    c ≠ '/' ∧ c ≠ '.' := by
  induction l with
  | nil => simp [hexEncode] at h
  | cons v rest ih =>
    simp only [hexEncode, List.mem_cons] at h
    rcases h with rfl | rfl | h
    · exact hextable_plain _ (hexDigit_mem ⟨v.val / 16, by omega⟩)
    · exact hextable_plain _ (hexDigit_mem ⟨v.val % 16, by omega⟩)
    · exact ih h

theorem uuidChars_length (u : UUID) : (uuidChars u).length = 36 := by
  obtain ⟨l, hl⟩ := u
  simp [uuidChars, hexEncode_length, hl]

theorem uuidChars_plain (u : UUID) (c : Char) (h : c ∈ uuidChars u) : c ≠ '/' := by
  simp only [uuidChars, List.mem_append, List.mem_cons] at h
  rcases h with h | rfl | h | rfl | h | rfl | h | rfl | h
  all_goals first
    | exact (hexEncode_plain _ _ h).1
    | decide

theorem uuidChars_head (u : UUID) : ∃ c rest, uuidChars u = c :: rest ∧ c ≠ '.' ∧ c ≠ '/' := by
  obtain ⟨l, hl⟩ := u
  cases l with
  | nil => simp at hl
  | cons a rest =>
    refine ⟨hexDigit (a.val / 16), _, by simp [uuidChars, hexEncode]; rfl, ?_⟩
    have := hextable_plain _ (hexDigit_mem ⟨a.val / 16, by omega⟩)
    exact ⟨this.2, this.1⟩

theorem uuidChars_injective (u1 u2 : UUID) (h : uuidChars u1 = uuidChars u2) : u1 = u2 := by
  obtain ⟨l1, hl1⟩ := u1
  obtain ⟨l2, hl2⟩ := u2
  simp only [uuidChars] at h
  have a1 := List.append_inj h (by simp [hexEncode_length, hl1, hl2])
  have ha := hexEncode_injective _ _ a1.1
  have h2 := List.cons_injective a1.2
  have a2 := List.append_inj h2 (by simp [hexEncode_length, hl1, hl2])
  have hb := hexEncode_injective _ _ a2.1
  have h3 := List.cons_injective a2.2
  have a3 := List.append_inj h3 (by simp [hexEncode_length, hl1, hl2])
  have hc := hexEncode_injective _ _ a3.1
  have h4 := List.cons_injective a3.2
  have a4 := List.append_inj h4 (by simp [hexEncode_length, hl1, hl2])
  have hd := hexEncode_injective _ _ a4.1
  have he := hexEncode_injective _ _ (List.cons_injective a4.2)
  have split : ∀ l : List (Fin 256), l = List.take 4 l ++ (List.take 2 (List.drop 4 l) ++
      (List.take 2 (List.drop 6 l) ++ (List.take 2 (List.drop 8 l) ++ List.drop 10 l))) := by
    intro l
    have e1 : List.drop 10 l = List.drop 2 (List.drop 8 l) := by simp [List.drop_drop]
    have e2 : List.drop 8 l = List.drop 2 (List.drop 6 l) := by simp [List.drop_drop]
    have e3 : List.drop 6 l = List.drop 2 (List.drop 4 l) := by simp [List.drop_drop]
    rw [e1, List.take_append_drop, e2, List.take_append_drop, e3, List.take_append_drop,
      List.take_append_drop]
  apply Subtype.ext
  show l1 = l2
  rw [split l1, split l2]
  simp only at ha hb hc hd he
  rw [ha, hb, hc, hd, he]

theorem extLoop_plain (rev acc : List Char) (hacc : ∀ c ∈ acc, c ≠ '/') :
    ∀ c ∈ extLoop rev acc, c ≠ '/' := by
  induction rev generalizing acc with
  | nil => simp [extLoop]
  | cons x rest ih =>
    unfold extLoop
    by_cases h1 : x = '/'
    · simp [h1]
    · by_cases h2 : x = '.'
      · subst h2
        simp only [h1, if_false, if_true]
        intro c hc
        rcases List.mem_cons.1 hc with rfl | hc
        · exact h1
        · exact hacc c hc
      · simp only [h1, h2, if_false]
        apply ih
        intro c hc
        rcases List.mem_cons.1 hc with rfl | hc
        · exact h1
        · exact hacc c hc

theorem splitSlash_ne_nil (l : List Char) : splitSlash l ≠ [] := by
  cases l with
  | nil => simp [splitSlash]
  | cons c cs =>
    unfold splitSlash
    split
    · simp
    · split <;> simp

theorem splitSlash_plain (l : List Char) (h : ∀ c ∈ l, c ≠ '/') : splitSlash l = [l] := by
  induction l with
  | nil => rfl
  | cons c cs ih =>
    have hc : c ≠ '/' := h c (List.mem_cons_self _ _)
    have hcs := ih (fun x hx => h x (List.mem_cons_of_mem _ hx))
    simp [splitSlash, hc, hcs]

theorem splitSlash_append (a b : List Char) :
    splitSlash (a ++ '/' :: b) = splitSlash a ++ splitSlash b := by
  induction a with
  | nil => simp [splitSlash]
  | cons c cs ih =>
    by_cases hc : c = '/'
    · simp [splitSlash, hc, ih]
    · have hne := splitSlash_ne_nil cs
      cases hcs : splitSlash cs with
      | nil => exact absurd hcs hne
      | cons x xs =>
        simp only [List.cons_append, splitSlash, hc, if_false, List.append_eq, ih, hcs]

theorem joinSlash_append_singleton (xs : List (List Char)) (n : List Char) :
    joinSlash (xs ++ [n]) = (if xs = [] then [] else joinSlash xs ++ ['/']) ++ n := by
  induction xs with
  | nil => simp [joinSlash]
  | cons e es ih =>
    cases es with
    | nil => simp [joinSlash]
    | cons e2 es2 =>
      simp only [List.cons_append, joinSlash, reduceCtorEq, if_false, List.append_eq] at ih ⊢
      rw [ih]
      simp

/-- Cleaning a directory followed by a plain name (no separator, not starting
with a dot) leaves the name as the last element, after a text that depends on
the directory only. -/
theorem cleanChars_dir_name (dir : List Char) (hdir : dir ≠ []) :
    ∃ pre : List Char, ∀ (c : Char) (rest : List Char), c ≠ '.' → c ≠ '/' →
      (∀ x ∈ rest, x ≠ '/') → cleanChars (dir ++ '/' :: (c :: rest)) = pre ++ c :: rest := by
  let rooted : Bool := dir.head? = some '/'
  let kept := (splitSlash dir).foldl (cleanStep rooted) []
  refine ⟨(if rooted then ['/'] else []) ++
    (if kept.reverse = [] then [] else joinSlash kept.reverse ++ ['/']), ?_⟩
  intro c rest hdot hsl hrest
  have hname : ∀ x ∈ c :: rest, x ≠ '/' := by
    intro x hx
    rcases List.mem_cons.1 hx with rfl | hx
    · exact hsl
    · exact hrest x hx
  have hhead : (dir ++ '/' :: c :: rest).head? = dir.head? := by
    cases dir with
    | nil => exact absurd rfl hdir
    | cons d ds => rfl
  have hstep : cleanStep rooted kept (c :: rest) = (c :: rest) :: kept := by
    simp [cleanStep, hdot]
  have hfold : (splitSlash (dir ++ '/' :: c :: rest)).foldl (cleanStep rooted) []
      = (c :: rest) :: kept := by
    rw [splitSlash_append, splitSlash_plain _ hname, List.foldl_append]
    simp only [List.foldl_cons, List.foldl_nil]
    exact hstep
  unfold cleanChars
  simp only [List.append_eq_nil, hdir, false_and, if_false, hhead]
  rw [hfold]
  simp only [List.reverse_cons, joinSlash_append_singleton]
  by_cases hr : rooted = true
  · simp only [rooted] at hr
    simp [hr, rooted]
  · simp only [rooted] at hr
    simp [hr, rooted]

theorem cleanChars_name (c : Char) (rest : List Char) (hdot : c ≠ '.') (hsl : c ≠ '/')
    (hrest : ∀ x ∈ rest, x ≠ '/') : cleanChars (c :: rest) = c :: rest := by
  have hname : ∀ x ∈ c :: rest, x ≠ '/' := by
    intro x hx
    rcases List.mem_cons.1 hx with rfl | hx
    · exact hsl
    · exact hrest x hx
  unfold cleanChars
  simp [splitSlash_plain _ hname, cleanStep, hdot, hsl, joinSlash]

/-- Joining a directory and a plain name puts the name last, after a text that
depends on the directory only. -/
theorem Join_plain_name (dir : String) :
    ∃ pre : List Char, ∀ (name : String) (c : Char) (rest : List Char), name.data = c :: rest →
      c ≠ '.' → c ≠ '/' → (∀ x ∈ rest, x ≠ '/') → (Join dir name).data = pre ++ name.data := by
  by_cases hdir : dir.data = []
  · refine ⟨[], ?_⟩
    intro name c rest hname hdot hsl hrest
    simp [Join, hdir, hname, cleanChars_name c rest hdot hsl hrest]
  · obtain ⟨pre, hpre⟩ := cleanChars_dir_name dir.data hdir
    refine ⟨pre, ?_⟩
    intro name c rest hname hdot hsl hrest
    simp [Join, hdir, hname, hpre c rest hdot hsl hrest]

/-- The stored name is plain: it starts with a hexadecimal digit and has no
separator. -/
theorem storedName_plain (u : UUID) (filename : String) :
    ∃ c rest, (u.String ++ Ext filename).data = c :: rest ∧ c ≠ '.' ∧ c ≠ '/' ∧
      ∀ x ∈ rest, x ≠ '/' := by
  obtain ⟨c, rest, hu, hdot, hsl⟩ := uuidChars_head u
  refine ⟨c, rest ++ extLoop filename.data.reverse [], ?_, hdot, hsl, ?_⟩
  · simp [UUID.String, Ext, hu]
  · intro x hx
    rcases List.mem_append.1 hx with hx | hx
    · exact uuidChars_plain u x (by rw [hu]; exact List.mem_cons_of_mem _ hx)
    · exact extLoop_plain _ [] (by simp) x hx

theorem storedName_injective (u1 u2 : UUID) (f1 f2 : String)
    (h : u1.String ++ Ext f1 = u2.String ++ Ext f2) : u1 = u2 := by
  have hd : (u1.String ++ Ext f1).data = (u2.String ++ Ext f2).data := by rw [h]
  simp only [String.data_append, UUID.String] at hd
  have := List.append_inj hd (by rw [uuidChars_length, uuidChars_length])
  exact uuidChars_injective u1 u2 this.1

theorem storedPath_injective (basePath : String) (u1 u2 : UUID) (f1 f2 : String)
    (h : Join basePath (u1.String ++ Ext f1) = Join basePath (u2.String ++ Ext f2)) :
    u1 = u2 := by
  obtain ⟨pre, hpre⟩ := Join_plain_name basePath
  obtain ⟨c1, r1, hn1, hd1, hs1, hr1⟩ := storedName_plain u1 f1
  obtain ⟨c2, r2, hn2, hd2, hs2, hr2⟩ := storedName_plain u2 f2
  have e1 := hpre _ c1 r1 hn1 hd1 hs1 hr1
  have e2 := hpre _ c2 r2 hn2 hd2 hs2 hr2
  rw [h, e2] at e1
  have := List.append_cancel_left e1
  exact storedName_injective u1 u2 f1 f2 (String.ext this.symm)

/-- What a successful `UploadFile` returned and wrote. -/
theorem UploadFile_ok (basePath : String) (env : Env) (s : State)
    (userID : Nat) (file : List Nat) (header : FileHeader) (request : UploadFileRequest)
    (resp : FileResponse)
    (hok : (UploadFile basePath env s userID file header request).res = .ok resp) :
    resp.FileName = env.newUUID.String ++ Ext header.Filename ∧
    resp.FilePath = Join basePath (env.newUUID.String ++ Ext header.Filename) ∧
    (UploadFile basePath env s userID file header request).state.disk
      = s.disk.write (Join basePath (env.newUUID.String ++ Ext header.Filename)) file := by
  rcases UploadFile_cases basePath env s userID file header request with
    ⟨err, -, h⟩ | ⟨err, -, -, h⟩ | ⟨k, err, -, -, -, h⟩ | ⟨err, -, -, -, -, h⟩ | ⟨-, -, -, -, h⟩
  · rw [h] at hok
    cases hok
  · rw [h] at hok
    cases hok
  · rw [h] at hok
    cases hok
  · rw [h] at hok
    cases hok
  · rw [h] at hok ⊢
    simp only [Except.ok.injEq] at hok
    subst hok
    exact ⟨rfl, rfl, rfl⟩

/-- C3, amended, at an input: the first of the two files of `stateTwoFiles` is
deleted; the second row and its file stay. -/
theorem rowsHaveFiles_preserved_witness :
    RowsHaveFiles stateTwoFiles ∧
    (∀ e, (Call.repoDelete 1, some e) ∉ (DeleteFile (Env.quiet uuidB 7) stateTwoFiles 1).trace) ∧
    (∀ r1 ∈ stateTwoFiles.db.rows, ∀ r2 ∈ stateTwoFiles.db.rows, r1.ID = 1 → r2.ID ≠ 1 →
      r1.Filepath ≠ r2.Filepath) ∧
    (DeleteFile (Env.quiet uuidB 7) stateTwoFiles 1).res = .ok () ∧
    stateTwoFiles.db.rows = [rowReport, rowNotes] ∧
    (DeleteFile (Env.quiet uuidB 7) stateTwoFiles 1).state.db.rows = [rowNotes] ∧
    (DeleteFile (Env.quiet uuidB 7) stateTwoFiles 1).state.disk.content rowNotes.Filepath
      = some [4, 5] ∧
    RowsHaveFiles (DeleteFile (Env.quiet uuidB 7) stateTwoFiles 1).state ∧
    (∃ gone, FileRepository.FindByID stateTwoFiles.db (Env.quiet uuidB 7).dbFindErr 1 = .ok gone ∧
        stateTwoFiles.disk.fileExists gone.Filepath = true ∧
        (DeleteFile (Env.quiet uuidB 7) stateTwoFiles 1).state.disk.fileExists gone.Filepath
          = false ∧
        (∀ r ∈ (DeleteFile (Env.quiet uuidB 7) stateTwoFiles 1).state.db.rows, r.ID ≠ 1) ∧
        (DeleteFile (Env.quiet uuidB 7) stateTwoFiles 1).state.db.rows
          = stateTwoFiles.db.rows.filter (fun r => !(r.ID == 1)) ∧
        (DeleteFile (Env.quiet uuidB 7) stateTwoFiles 1).state.db.nextID
          = stateTwoFiles.db.nextID ∧
        (∀ q, q ≠ gone.Filepath →
          (DeleteFile (Env.quiet uuidB 7) stateTwoFiles 1).state.disk.fileExists q
            = stateTwoFiles.disk.fileExists q ∧
          (DeleteFile (Env.quiet uuidB 7) stateTwoFiles 1).state.disk.content q
            = stateTwoFiles.disk.content q)) :=
  have h1 : RowsHaveFiles stateTwoFiles := by decide
  have h2 : ∀ e, (Call.repoDelete 1, some e) ∉
      (DeleteFile (Env.quiet uuidB 7) stateTwoFiles 1).trace := by
    intro e h
    have hd : (DeleteFile (Env.quiet uuidB 7) stateTwoFiles 1).trace
        = [(Call.repoFindByID 1, none), (Call.osRemove rowReport.Filepath, none),
            (Call.repoDelete 1, none)] := by decide
    rw [hd] at h
    simp at h
  have h3 : ∀ r1 ∈ stateTwoFiles.db.rows, ∀ r2 ∈ stateTwoFiles.db.rows, r1.ID = 1 → r2.ID ≠ 1 →
      r1.Filepath ≠ r2.Filepath := by decide
  have h4 : (DeleteFile (Env.quiet uuidB 7) stateTwoFiles 1).res = .ok () := by decide
  ⟨h1, h2, h3, h4, by decide, by decide, by decide,
    (rowsHaveFiles_preserved "uploads" (Env.quiet uuidB 7) stateTwoFiles 7 [1, 2, 3] headerReport
      ⟨none⟩ 1).2.2.2.2.2.2.1 h1 h2 h3,
    (rowsHaveFiles_preserved "uploads" (Env.quiet uuidB 7) stateTwoFiles 7 [1, 2, 3] headerReport
      ⟨none⟩ 1).2.2.2.2.2.2.2.2 h4⟩

/-- C9: two uploads for which the generator returns different identifiers get
different stored names, each the 36 characters of the identifier followed by
the extension of the original filename, and different destination paths under
the base directory, whatever the original filenames; when both succeed, one
after the other, each file has its own content afterwards. -/
theorem stored_names_distinct (basePath : String) (env1 env2 : Env) (s : State)
    (user1 user2 : Nat) (file1 file2 : List Nat) (header1 header2 : FileHeader)
    (request1 request2 : UploadFileRequest) (hne : env1.newUUID ≠ env2.newUUID) :
    env1.newUUID.String.length = 36 ∧ env2.newUUID.String.length = 36 ∧
    env1.newUUID.String ++ Ext header1.Filename ≠ env2.newUUID.String ++ Ext header2.Filename ∧
    Join basePath (env1.newUUID.String ++ Ext header1.Filename)
      ≠ Join basePath (env2.newUUID.String ++ Ext header2.Filename) ∧
    ∀ r1 r2, (UploadFile basePath env1 s user1 file1 header1 request1).res = .ok r1 →
      (UploadFile basePath env2 (UploadFile basePath env1 s user1 file1 header1 request1).state
        user2 file2 header2 request2).res = .ok r2 →
      r1.FileName = env1.newUUID.String ++ Ext header1.Filename ∧
      r2.FileName = env2.newUUID.String ++ Ext header2.Filename ∧
      r1.FileName ≠ r2.FileName ∧ r1.FilePath ≠ r2.FilePath ∧
      (UploadFile basePath env2 (UploadFile basePath env1 s user1 file1 header1 request1).state
        user2 file2 header2 request2).state.disk.content r1.FilePath = some file1 ∧
      (UploadFile basePath env2 (UploadFile basePath env1 s user1 file1 header1 request1).state
        user2 file2 header2 request2).state.disk.content r2.FilePath = some file2 := by
  have hname : env1.newUUID.String ++ Ext header1.Filename
      ≠ env2.newUUID.String ++ Ext header2.Filename :=
    fun h => hne (storedName_injective _ _ _ _ h)
  have hpath : Join basePath (env1.newUUID.String ++ Ext header1.Filename)
      ≠ Join basePath (env2.newUUID.String ++ Ext header2.Filename) :=
    fun h => hne (storedPath_injective basePath _ _ _ _ h)
  refine ⟨by simp [UUID.String, String.length, uuidChars_length],
    by simp [UUID.String, String.length, uuidChars_length], hname, hpath, ?_⟩
  intro r1 r2 hok1 hok2
  obtain ⟨n1, p1, d1⟩ := UploadFile_ok _ _ _ _ _ _ _ _ hok1
  obtain ⟨n2, p2, d2⟩ := UploadFile_ok _ _ _ _ _ _ _ _ hok2
  rw [d2, d1, n1, n2, p1, p2]
  refine ⟨rfl, rfl, hname, hpath, ?_, ?_⟩
  · rw [Disk.content_write, if_neg (fun h => hpath h.symm), Disk.content_write, if_pos rfl]
  · rw [Disk.content_write, if_pos rfl]

/-- C9, at an input: `report.pdf` uploaded twice, identifiers `uuidA` and
`uuidB`. -/
theorem stored_names_distinct_witness :
    (Env.quiet uuidA 5).newUUID ≠ (Env.quiet uuidB 6).newUUID ∧
    (Env.quiet uuidA 5).newUUID.String ++ Ext headerReport.Filename
      ≠ (Env.quiet uuidB 6).newUUID.String ++ Ext headerReport.Filename ∧
    Join "uploads" ((Env.quiet uuidA 5).newUUID.String ++ Ext headerReport.Filename)
      ≠ Join "uploads" ((Env.quiet uuidB 6).newUUID.String ++ Ext headerReport.Filename) :=
  have h : (Env.quiet uuidA 5).newUUID ≠ (Env.quiet uuidB 6).newUUID := by decide
  ⟨h, (stored_names_distinct "uploads" (Env.quiet uuidA 5) (Env.quiet uuidB 6) State.init 7 8
      [1, 2, 3] [4, 5] headerReport headerReport ⟨none⟩ ⟨none⟩ h).2.2.1,
    (stored_names_distinct "uploads" (Env.quiet uuidA 5) (Env.quiet uuidB 6) State.init 7 8
      [1, 2, 3] [4, 5] headerReport headerReport ⟨none⟩ ⟨none⟩ h).2.2.2.1⟩

end VasVault
